import Mathlib

/-!
Verification of the SecureCode AI asynchronous analysis pipeline.

Shallow embedding of:
* `backend/api/routers/analysis.py`   — `detect_simple_vulnerabilities` (hybrid detection),
* `backend/ml_service/model_loader.py` — `VulnerabilityDetector.predict`, `_get_severity`,
* `backend/workers/stream_processor.py` — `process_code_analysis` and the worker batch loop,
* `backend/api/routers/websocket.py`  — `ConnectionManager` and the push-session dispatcher.

Python strings are modelled by Lean `String`, with the string primitives the code
uses (`lower`, `find`, `split`, `strip`, `in`, slicing) re-implemented as plain
recursion over the character list so that all definitions evaluate by kernel
reduction.  Machine floats in the source only carry the constants 0.75 / 0.68 /
0.82 and classifier scores; they are modelled by `ℚ`.
-/

namespace SecureCode

/-! ### Python string primitives -/

/-- Python `s.lower()` (ASCII case folding, which covers every pattern the code uses). -/
def lowerStr (s : String) : String := (s.toList.map Char.toLower).asString

/-- Python `s.strip()`: remove leading and trailing whitespace. -/
def stripStr (s : String) : String :=
  (((s.toList.dropWhile Char.isWhitespace).reverse.dropWhile Char.isWhitespace).reverse).asString

/-- Python `len(s)` (character count). -/
def strLen (s : String) : Nat := s.toList.length

/-- Python `s[:n]`. -/
def strTake (n : Nat) (s : String) : String := (s.toList.take n).asString

/-- Index of the first occurrence of `pat` in the scanned suffix, starting the
count at `i`; `none` when `pat` does not occur. -/
def strFindAux (pat : List Char) : List Char → Nat → Option Nat
  | [], i => if pat.isEmpty then some i else none
  | c :: cs, i => if pat.isPrefixOf (c :: cs) then some i else strFindAux pat cs (i + 1)

/-- Python `pat in line` (substring containment). -/
def containsStr (line pat : String) : Bool := (strFindAux pat.toList line.toList 0).isSome

/-- Python `line.find(pat)`: first index of `pat` in `line`, `-1` when absent. -/
def pyFind (line pat : String) : Int :=
  match strFindAux pat.toList line.toList 0 with
  | some n => (n : Int)
  | none => -1

/-- Python `s.split(sep)` for a single character separator, over char lists. -/
def splitNL : List Char → List (List Char)
  | [] => [[]]
  | c :: cs =>
    if c = '\n' then [] :: splitNL cs
    else
      match splitNL cs with
      | [] => [[c]]
      | l :: ls => (c :: l) :: ls

/-- Python `code.split('\n')`. -/
def splitLines (code : String) : List String := (splitNL code.toList).map List.asString

/-- Python `'"' in line or "'" in line` — 34 and 39 are the code points of the
double and single quote. -/
def hasQuote (line : String) : Bool :=
  line.toList.contains (Char.ofNat 34) || line.toList.contains (Char.ofNat 39)

/-! ### Data model: `Vulnerability` (analysis.py)

The pydantic model `Vulnerability` of `analysis.py` carries `id`, `category`,
`severity`, `line_number`, `column_number`, `message`, `code_snippet`,
`confidence_score`.  The extra `source` field records the provenance
(pattern branch vs ML branch of `detect_simple_vulnerabilities`), the `source`
attribute of the spec's Finding data model; it influences no computation. -/

structure Vulnerability where
  id : String
  category : String
  severity : String
  line_number : Nat
  column_number : Int
  message : String
  code_snippet : String
  confidence_score : ℚ
  source : String
deriving DecidableEq, Repr

/-! ### Pattern sub-engine (analysis.py, `detect_simple_vulnerabilities`) -/

def sql_patterns : List String := ["execute(", "cursor.execute(", ".query(", "SELECT * FROM"]

def xss_patterns : List String := ["innerHTML =", "document.write(", "eval("]

def secret_patterns : List String := ["password =", "api_key =", "secret =", "token ="]

def mkSqlFinding (ln : Nat) (line pat : String) : Vulnerability :=
  { id := "", category := "SQL Injection", severity := "CRITICAL", line_number := ln,
    column_number := pyFind line pat,
    message := "Possible SQL injection: String concatenation in SQL query",
    code_snippet := stripStr line, confidence_score := 0.75, source := "pattern" }

def mkXssFinding (ln : Nat) (line pat : String) : Vulnerability :=
  { id := "", category := "Cross-Site Scripting (XSS)", severity := "HIGH", line_number := ln,
    column_number := pyFind line pat,
    message := "Possible XSS vulnerability: Unsafe HTML manipulation",
    code_snippet := stripStr line, confidence_score := 0.68, source := "pattern" }

def mkSecretFinding (ln : Nat) (line pat : String) : Vulnerability :=
  { id := "", category := "Hardcoded Secrets", severity := "HIGH", line_number := ln,
    column_number := pyFind line pat,
    message := "Hardcoded secret detected: Use environment variables instead",
    code_snippet := stripStr line, confidence_score := 0.82, source := "pattern" }

def sqlLineFindings (ln : Nat) (line : String) : List Vulnerability :=
  sql_patterns.filterMap fun pat =>
    if containsStr (lowerStr line) (lowerStr pat) && containsStr line "+"
    then some (mkSqlFinding ln line pat) else none

def xssLineFindings (ln : Nat) (line : String) : List Vulnerability :=
  xss_patterns.filterMap fun pat =>
    if containsStr (lowerStr line) (lowerStr pat)
    then some (mkXssFinding ln line pat) else none

def secretLineFindings (ln : Nat) (line : String) : List Vulnerability :=
  secret_patterns.filterMap fun pat =>
    if containsStr (lowerStr line) (lowerStr pat)
        && (containsStr line "=" || containsStr line ":") && hasQuote line
    then some (mkSecretFinding ln line pat) else none

/-- Findings the per-line body of the pattern loop emits for line `ln`:
SQL-injection checks, then XSS checks, then hardcoded-secret checks. -/
def lineFindings (ln : Nat) (line : String) : List Vulnerability :=
  sqlLineFindings ln line ++ xssLineFindings ln line ++ secretLineFindings ln line

/-- `for line_num, line in enumerate(lines, start=1)`. -/
def patternFindingsFrom : Nat → List String → List Vulnerability
  | _, [] => []
  | ln, line :: rest => lineFindings ln line ++ patternFindingsFrom (ln + 1) rest

/-- The pattern-based part of `detect_simple_vulnerabilities`. -/
def patternFindings (code : String) : List Vulnerability :=
  patternFindingsFrom 1 (splitLines code)

/-! ### Classifier sub-engine (model_loader.py) -/

/-- `self.vulnerability_labels` of `VulnerabilityDetector`. -/
def vulnerability_labels : List String :=
  ["SQL Injection", "Cross-Site Scripting (XSS)", "Hardcoded Secrets", "Path Traversal",
   "Command Injection", "Insecure Deserialization", "SSRF", "XXE", "Buffer Overflow",
   "Race Condition"]

/-- `VulnerabilityDetector._get_severity`. -/
def get_severity (category : String) : String :=
  if category ∈ ["SQL Injection", "Command Injection", "Buffer Overflow"] then "CRITICAL"
  else if category ∈ ["Cross-Site Scripting (XSS)", "Path Traversal",
      "Insecure Deserialization", "SSRF", "XXE"] then "HIGH"
  else "MEDIUM"

/-- One element of the list `VulnerabilityDetector.predict` returns. -/
structure Pred where
  category : String
  confidence : ℚ
  severity : String
  source : String
deriving DecidableEq, Repr

/-- `VulnerabilityDetector.predict`: the classifier snapshot is the vector of
post-sigmoid scores `predictions[0]`, one per label; predict keeps the labels
whose score strictly exceeds the threshold, in label order. -/
def predict (scores : List ℚ) (threshold : ℚ) : List Pred :=
  (vulnerability_labels.zip scores).filterMap fun p =>
    if threshold < p.2 then some ⟨p.1, p.2, get_severity p.1, "ml_model"⟩ else none

/-! ### Hybrid merge (analysis.py, ML branch of `detect_simple_vulnerabilities`) -/

/-- Python `f"{q:.0%}"`, up to the tie-breaking of exact halves (Python rounds
half-to-even; no claim inspects the message text). -/
def fmtPercent (q : ℚ) : String := toString (round (q * 100) : ℤ) ++ "%"

def mkMLFinding (code : String) (p : Pred) : Vulnerability :=
  { id := "", category := p.category, severity := p.severity, line_number := 1,
    column_number := 0,
    message := "ML Model detected " ++ p.category ++ " (confidence: "
      ++ fmtPercent p.confidence ++ ")",
    code_snippet := if 100 < strLen code then strTake 100 code ++ "..." else code,
    confidence_score := p.confidence, source := "model" }

/-- Outcome of the classifier invocation inside `detect_simple_vulnerabilities`:
`ML_AVAILABLE = False` (unavailable), the `except` branch around
`get_detector()/predict` (error), or a returned prediction list.  A failure
inside `predict` itself is caught there and surfaces as `ok []`. -/
inductive MLOutcome
  | unavailable
  | error
  | ok (preds : List Pred)
deriving Repr

/-- The ML loop: each prediction is dropped when any already-accumulated
vulnerability (pattern-sourced or previously appended model-sourced) has its
category, otherwise appended.  Returns only the appended suffix. -/
def mlExtra (code : String) : List Vulnerability → List Pred → List Vulnerability
  | _, [] => []
  | acc, p :: rest =>
    if acc.any (fun v => v.category == p.category) then mlExtra code acc rest
    else mkMLFinding code p :: mlExtra code (acc ++ [mkMLFinding code p]) rest

/-- `detect_simple_vulnerabilities` up to the `uuid4()` draws: the returned
list with every `id` still blank.  The `language` argument is accepted and,
as in the source, never read. -/
def detectFindings (code language : String) : MLOutcome → List Vulnerability
  | .ok preds => patternFindings code ++ mlExtra code (patternFindings code) preds
  | _ => patternFindings code

/-- The `id=str(uuid.uuid4())` draws: the `n`-th constructed finding receives
the `n`-th fresh identifier of the run's supply `ids`. -/
def attachIds (ids : Nat → String) : List Vulnerability → List Vulnerability
  | [] => []
  | v :: vs => { v with id := ids 0 } :: attachIds (fun n => ids (n + 1)) vs

/-- `detect_simple_vulnerabilities(code, language)`: pattern findings in line
order, then the surviving classifier findings, with fresh ids attached in
construction order. -/
def detect_simple_vulnerabilities (ids : Nat → String) (code language : String)
    (ml : MLOutcome) : List Vulnerability :=
  attachIds ids (detectFindings code language ml)

/-! ### Worker (stream_processor.py) -/

/-- A queue-stream entry as built by `analyze_code_realtime` and read back by
the worker via `message_data.get(...)`. -/
structure QueueMessage where
  analysis_id : String
  scan_id : String
  code : String
  file_path : String
  language : String
  project_id : String
  timestamp : String
deriving DecidableEq, Repr

/-- The JSON object `process_code_analysis` stores under `result:{analysis_id}`. -/
structure WorkerResult where
  analysis_id : String
  status : String
  processed_at : String
  vulnerabilities_found : Nat
deriving DecidableEq, Repr

/-- Observable effects of one pass of the worker's `while True` body. -/
inductive WorkerEffect
  | store (key : String) (ttlSeconds : Nat) (value : WorkerResult)
  | ack (messageId : String)
  | reportError
  | sleep (seconds : Nat)
deriving DecidableEq, Repr

/-- `process_code_analysis(message_data)`: logs, then `setex` of the completed
stub result (no Detection Engine call; `vulnerabilities_found` is the constant
0) under `result:{analysis_id}` with a 3600-second expiry. -/
def process_code_analysis (now : String) (msg : QueueMessage) : WorkerEffect :=
  .store ("result:" ++ msg.analysis_id) 3600
    { analysis_id := msg.analysis_id, status := "completed", processed_at := now,
      vulnerabilities_found := 0 }

/-- Per-entry body of the worker loop: process, then `xack`. -/
def handleEntry (now mid : String) (msg : QueueMessage) : List WorkerEffect :=
  [process_code_analysis now msg, .ack mid]

/-- One `try` body of `main`'s loop over a read batch.  `fails mid` models
`process_code_analysis` raising on that entry; the exception escapes the
`for` loop, is caught by the surrounding `except Exception`, which prints the
error and sleeps one second — the remaining entries of the batch are neither
processed nor acknowledged in this pass, and the loop then re-enters. -/
def runBatch (fails : String → Bool) (now : String) :
    List (String × QueueMessage) → List WorkerEffect
  | [] => []
  | (mid, msg) :: rest =>
    if fails mid then [.reportError, .sleep 1]
    else handleEntry now mid msg ++ runBatch fails now rest

/-! ### Connection Manager (websocket.py) -/

/-- `self.active_connections : Dict[str, Set[WebSocket]]`; sockets are opaque
handles modelled by `Nat`, a dict by an association list with distinct keys,
a set by its list of elements. -/
abbrev Registry := List (String × List Nat)

/-- Python `self.active_connections[cid]` access (with `cid in` guard). -/
def lookupClient : Registry → String → Option (List Nat)
  | [], _ => none
  | p :: r, cid => if p.1 = cid then some p.2 else lookupClient r cid

/-- Python `self.active_connections[cid] = hs`. -/
def setClient (r : Registry) (cid : String) (hs : List Nat) : Registry :=
  r.map fun p => if p.1 = cid then (cid, hs) else p

/-- Python `set.discard`. -/
def sdiscard (hs : List Nat) (h : Nat) : List Nat := hs.filter (fun x => x != h)

/-- `ConnectionManager.disconnect`: discard the handle; delete the client's
entry when its set becomes empty. -/
def disconnect (r : Registry) (ws : Nat) (cid : String) : Registry :=
  match lookupClient r cid with
  | none => r
  | some conns =>
    let conns2 := sdiscard conns ws
    if conns2.isEmpty then r.filter (fun p => p.1 != cid)
    else setClient r cid conns2

/-- `ConnectionManager.broadcast_to_client`: try to send to every handle of
the client (`sendOk` tells which sends succeed), collect the failed ones, then
discard each failed handle from the client's set — the client's key itself is
never removed.  Returns the new registry and the handles that received the
message. -/
def broadcast_to_client (sendOk : Nat → Bool) (r : Registry) (cid : String) :
    Registry × List Nat :=
  match lookupClient r cid with
  | none => (r, [])
  | some conns =>
    let delivered := conns.filter sendOk
    let disconnected := conns.filter (fun h => ! sendOk h)
    (setClient r cid (disconnected.foldl sdiscard conns), delivered)

/-! ### Push-session dispatcher (websocket.py, `websocket_endpoint`) -/

/-- Inbound client messages, discriminated by their `type` field; absent
fields surface as `none` (`message.get(...)`). -/
inductive ClientMsg
  | ping (timestamp : Option String)
  | analyze (analysis_id : Option String)
  | other
deriving DecidableEq, Repr

/-- Server replies sent over the session. -/
inductive ServerMsg
  | connection (status client_id msg : String)
  | pong (timestamp : Option String)
  | analysis_queued (analysis_id : Option String) (status : String)
  | analysis_result (analysis_id : Option String) (status : String)
      (vulnerabilities : List Vulnerability)
deriving DecidableEq, Repr

/-- One iteration of the endpoint's receive loop: the replies sent for one
inbound message.  On `analyze` the server emits `analysis_queued`, sleeps half
a second, then emits a hard-coded `analysis_result` with an empty
vulnerability list — no analysis is consulted. -/
def handle_client_message : ClientMsg → List ServerMsg
  | .ping ts => [.pong ts]
  | .analyze aid => [.analysis_queued aid "processing", .analysis_result aid "completed" []]
  | .other => []

-- scratch sanity checks (to be removed)
example : (patternFindings "EXECUTE(a + b)").map (fun f => (f.category, f.column_number))
    = [("SQL Injection", -1)] := by decide
example : (patternFindings "cursor.execute(q + x)").map (fun f => f.category)
    = ["SQL Injection", "SQL Injection"] := by decide
example : splitLines "a\nbb\n" = ["a", "bb", ""] := by decide

/-! ### Helper lemmas -/

/-- A finding with its fresh identifier erased. -/
def eraseId (v : Vulnerability) : Vulnerability := { v with id := "" }

theorem attachIds_append (ids : Nat → String) (l₁ l₂ : List Vulnerability) :
    attachIds ids (l₁ ++ l₂)
      = attachIds ids l₁ ++ attachIds (fun n => ids (n + l₁.length)) l₂ := by
  induction l₁ generalizing ids with
  | nil => rfl
  | cons v vs ih =>
    calc attachIds ids ((v :: vs) ++ l₂)
        = { v with id := ids 0 } :: attachIds (fun n => ids (n + 1)) (vs ++ l₂) := rfl
      _ = { v with id := ids 0 } :: (attachIds (fun n => ids (n + 1)) vs
            ++ attachIds (fun n => ids (n + vs.length + 1)) l₂) :=
          congrArg _ (ih (fun n => ids (n + 1)))
      _ = attachIds ids (v :: vs) ++ attachIds (fun n => ids (n + (v :: vs).length)) l₂ := rfl

theorem map_eraseId_attachIds (ids : Nat → String) (l : List Vulnerability) :
    (attachIds ids l).map eraseId = l.map eraseId := by
  induction l generalizing ids with
  | nil => rfl
  | cons v vs ih => simp [attachIds, eraseId, ih]

theorem mem_attachIds_imp {ids : Nat → String} {l : List Vulnerability} {f : Vulnerability}
    (h : f ∈ attachIds ids l) : ∃ g ∈ l, eraseId f = eraseId g := by
  induction l generalizing ids with
  | nil => cases h
  | cons v vs ih =>
    rcases List.mem_cons.mp h with h1 | h2
    · exact ⟨v, List.mem_cons_self v vs, by rw [h1]; simp [eraseId]⟩
    · obtain ⟨g, hg, he⟩ := ih h2
      exact ⟨g, List.mem_cons_of_mem v hg, he⟩

theorem mem_attachIds_of_mem {ids : Nat → String} {l : List Vulnerability} {g : Vulnerability}
    (h : g ∈ l) : ∃ f ∈ attachIds ids l, eraseId f = eraseId g := by
  induction l generalizing ids with
  | nil => cases h
  | cons v vs ih =>
    rcases List.mem_cons.mp h with h1 | h2
    · exact ⟨{ v with id := ids 0 }, List.mem_cons_self _ _, by rw [h1]; simp [eraseId]⟩
    · obtain ⟨f, hf, he⟩ := @ih (fun n => ids (n + 1)) h2
      exact ⟨f, List.mem_cons_of_mem _ hf, he⟩

theorem eraseId_fields {f g : Vulnerability} (h : eraseId f = eraseId g) :
    f.category = g.category ∧ f.severity = g.severity ∧ f.line_number = g.line_number ∧
    f.column_number = g.column_number ∧ f.confidence_score = g.confidence_score ∧
    f.source = g.source := by
  cases f; cases g
  simp only [eraseId, Vulnerability.mk.injEq] at h
  simp_all

theorem mlExtra_disjoint (code : String) :
    ∀ (preds : List Pred) (acc : List Vulnerability) (f : Vulnerability),
      f ∈ mlExtra code acc preds → ∀ v ∈ acc, v.category ≠ f.category := by
  intro preds
  induction preds with
  | nil => intro acc f h; cases h
  | cons p rest ih =>
    intro acc f h v hv
    rw [mlExtra] at h
    by_cases hdup : (acc.any (fun v => v.category == p.category)) = true
    · rw [if_pos hdup] at h
      exact ih acc f h v hv
    · rw [if_neg hdup] at h
      rcases List.mem_cons.mp h with h1 | h2
      · subst h1
        intro hcontra
        exact hdup (List.any_eq_true.mpr ⟨v, hv, beq_iff_eq.mpr hcontra⟩)
      · exact ih _ f h2 v (List.mem_append_left _ hv)

theorem mlExtra_shape (code : String) :
    ∀ (preds : List Pred) (acc : List Vulnerability) (f : Vulnerability),
      f ∈ mlExtra code acc preds → ∃ p ∈ preds, f = mkMLFinding code p := by
  intro preds
  induction preds with
  | nil => intro acc f h; cases h
  | cons p rest ih =>
    intro acc f h
    rw [mlExtra] at h
    by_cases hdup : (acc.any (fun v => v.category == p.category)) = true
    · rw [if_pos hdup] at h
      obtain ⟨q, hq, he⟩ := ih acc f h
      exact ⟨q, List.mem_cons_of_mem p hq, he⟩
    · rw [if_neg hdup] at h
      rcases List.mem_cons.mp h with h1 | h2
      · exact ⟨p, List.mem_cons_self p rest, h1⟩
      · obtain ⟨q, hq, he⟩ := ih _ f h2
        exact ⟨q, List.mem_cons_of_mem p hq, he⟩

theorem mem_lineFindings_shape {ln : Nat} {line : String} {f : Vulnerability}
    (h : f ∈ lineFindings ln line) :
    (∃ pat, f = mkSqlFinding ln line pat) ∨ (∃ pat, f = mkXssFinding ln line pat) ∨
    (∃ pat, f = mkSecretFinding ln line pat) := by
  simp only [lineFindings, List.mem_append] at h
  rcases h with (h | h) | h
  · left
    simp only [sqlLineFindings, List.mem_filterMap] at h
    obtain ⟨pat, _, hsome⟩ := h
    split at hsome
    · exact ⟨pat, (Option.some.injEq _ _ ▸ hsome).symm⟩
    · cases hsome
  · right; left
    simp only [xssLineFindings, List.mem_filterMap] at h
    obtain ⟨pat, _, hsome⟩ := h
    split at hsome
    · exact ⟨pat, (Option.some.injEq _ _ ▸ hsome).symm⟩
    · cases hsome
  · right; right
    simp only [secretLineFindings, List.mem_filterMap] at h
    obtain ⟨pat, _, hsome⟩ := h
    split at hsome
    · exact ⟨pat, (Option.some.injEq _ _ ▸ hsome).symm⟩
    · cases hsome

theorem mem_patternFindingsFrom_shape {lines : List String} :
    ∀ {ln : Nat} {f : Vulnerability}, f ∈ patternFindingsFrom ln lines →
    ∃ ln2 line, ((∃ pat, f = mkSqlFinding ln2 line pat) ∨ (∃ pat, f = mkXssFinding ln2 line pat) ∨
      (∃ pat, f = mkSecretFinding ln2 line pat)) := by
  induction lines with
  | nil => intro ln f h; cases h
  | cons l rest ih =>
    intro ln f h
    rw [patternFindingsFrom] at h
    rcases List.mem_append.mp h with h | h
    · exact ⟨ln, l, mem_lineFindings_shape h⟩
    · exact ih h

theorem mem_patternFindings_shape {code : String} {f : Vulnerability}
    (h : f ∈ patternFindings code) :
    ∃ ln line, ((∃ pat, f = mkSqlFinding ln line pat) ∨ (∃ pat, f = mkXssFinding ln line pat) ∨
      (∃ pat, f = mkSecretFinding ln line pat)) := by
  rw [patternFindings] at h
  exact mem_patternFindingsFrom_shape h

theorem neg_one_le_pyFind (line pat : String) : -1 ≤ pyFind line pat := by
  rw [pyFind]
  cases hE : strFindAux pat.toList line.toList 0 with
  | none => exact le_refl _
  | some n =>
    show (-1 : Int) ≤ (n : Int)
    omega

theorem pattern_wf {code : String} {f : Vulnerability} (h : f ∈ patternFindings code) :
    f.source = "pattern" ∧ -1 ≤ f.column_number ∧ 0 ≤ f.confidence_score ∧
    f.confidence_score ≤ 1 ∧ f.category ∈ vulnerability_labels := by
  obtain ⟨ln, line, hc⟩ := mem_patternFindings_shape h
  rcases hc with ⟨pat, rfl⟩ | ⟨pat, rfl⟩ | ⟨pat, rfl⟩
  · exact ⟨rfl, neg_one_le_pyFind line pat, by norm_num [mkSqlFinding],
      by norm_num [mkSqlFinding], show "SQL Injection" ∈ vulnerability_labels by decide⟩
  · exact ⟨rfl, neg_one_le_pyFind line pat, by norm_num [mkXssFinding],
      by norm_num [mkXssFinding],
      show "Cross-Site Scripting (XSS)" ∈ vulnerability_labels by decide⟩
  · exact ⟨rfl, neg_one_le_pyFind line pat, by norm_num [mkSecretFinding],
      by norm_num [mkSecretFinding], show "Hardcoded Secrets" ∈ vulnerability_labels by decide⟩

theorem predict_mem {scores : List ℚ} {thr : ℚ} {p : Pred} (h : p ∈ predict scores thr) :
    p.category ∈ vulnerability_labels ∧ p.confidence ∈ scores := by
  simp only [predict, List.mem_filterMap] at h
  obtain ⟨q, hq, hsome⟩ := h
  have hz := List.of_mem_zip hq
  split at hsome
  · cases hsome
    exact ⟨hz.1, hz.2⟩
  · cases hsome

theorem mem_patternFindingsFrom_of_get {lines : List String} :
    ∀ {i ln : Nat} {line : String} {f : Vulnerability},
      lines.get? i = some line → f ∈ lineFindings (ln + i) line →
      f ∈ patternFindingsFrom ln lines := by
  induction lines with
  | nil => intro i ln line f h _; simp at h
  | cons l rest ih =>
    intro i ln line f hget hf
    cases i with
    | zero =>
      simp only [List.get?_cons_zero, Option.some.injEq] at hget
      subst hget
      rw [patternFindingsFrom]
      exact List.mem_append_left _ hf
    | succ j =>
      simp only [List.get?_cons_succ] at hget
      rw [patternFindingsFrom]
      refine List.mem_append_right _ (ih hget ?_)
      have harith : ln + (j + 1) = (ln + 1) + j := by omega
      rwa [harith] at hf

theorem pattern_mem_detectFindings {code lang : String} {f : Vulnerability} (ml : MLOutcome)
    (h : f ∈ patternFindings code) : f ∈ detectFindings code lang ml := by
  cases ml with
  | ok preds => exact List.mem_append_left _ h
  | unavailable => exact h
  | error => exact h

theorem lookupClient_setClient {r : Registry} {cid : String} {hs0 : List Nat} (hs : List Nat)
    (h : lookupClient r cid = some hs0) :
    lookupClient (setClient r cid hs) cid = some hs := by
  induction r with
  | nil => cases h
  | cons p r ih =>
    by_cases hp : p.1 = cid
    · simp [setClient, lookupClient, hp]
    · rw [lookupClient, if_neg hp] at h
      simp only [setClient, List.map_cons]
      rw [if_neg hp, lookupClient, if_neg hp]
      exact ih h

theorem foldl_sdiscard_eq_nil {l : List Nat} :
    ∀ {acc : List Nat}, (∀ x ∈ acc, x ∈ l) → List.foldl sdiscard acc l = [] := by
  induction l with
  | nil =>
    intro acc h
    rw [List.foldl_nil]
    exact List.eq_nil_iff_forall_not_mem.mpr fun x hx => List.not_mem_nil x (h x hx)
  | cons b bs ih =>
    intro acc h
    rw [List.foldl_cons]
    apply ih
    intro x hx
    obtain ⟨hxa, hxb⟩ := List.mem_filter.mp hx
    rcases List.mem_cons.mp (h x hxa) with h1 | h2
    · exact absurd h1 (by simpa using hxb)
    · exact h2

theorem runBatch_fail_split (fails : String → Bool) (now : String)
    (pre : List (String × QueueMessage)) (mid : String) (msg : QueueMessage)
    (rest : List (String × QueueMessage))
    (hpre : ∀ p ∈ pre, fails p.1 = false) (hmid : fails mid = true) :
    runBatch fails now (pre ++ (mid, msg) :: rest)
      = (pre.map (fun p => handleEntry now p.1 p.2)).flatten
        ++ [WorkerEffect.reportError, WorkerEffect.sleep 1] := by
  induction pre with
  | nil =>
    rw [List.nil_append, runBatch, if_pos hmid]
    simp
  | cons q pre ih =>
    obtain ⟨a, b⟩ := q
    have ha : fails a = false := hpre (a, b) (List.mem_cons_self _ _)
    rw [List.cons_append, runBatch, if_neg (by rw [ha]; exact Bool.false_ne_true)]
    rw [ih fun p hp => hpre p (List.mem_cons_of_mem _ hp)]
    simp [List.append_assoc]

/-! ### Claim theorems -/

/-- Claim C2 (counterexample): the worker does not invoke the Detection Engine
and its stored outcome carries no findings.  On an entry whose code contains a
query marker with string concatenation, `process_code_analysis` stores a result
reporting `vulnerabilities_found = 0`, while the Detection Engine applied to the
same code yields one SQL-injection finding. -/
theorem worker_outcome_omits_findings :
    process_code_analysis "2026-01-01T00:00:00"
        (⟨"a1", "s1", "db.query(q + x)", "app.py", "python", "default", "t0"⟩ : QueueMessage)
      = WorkerEffect.store "result:a1" 3600
          (⟨"a1", "completed", "2026-01-01T00:00:00", 0⟩ : WorkerResult) ∧
    (detectFindings "db.query(q + x)" "python" MLOutcome.unavailable).map
        (fun f => f.category) = ["SQL Injection"] :=
  ⟨rfl, by decide⟩

/-- Claim C2 (amended): for every queue entry the worker extracts the payload,
writes a completed outcome — with the constant `vulnerabilities_found = 0` and
no findings, the Detection Engine never being invoked — under
`result:{analysis_id}` with a one-hour (3600 s) expiry, and only then
acknowledges the entry. -/
theorem worker_writes_stub_outcome_then_acks (now mid : String) (msg : QueueMessage) :
    handleEntry now mid msg
      = [WorkerEffect.store ("result:" ++ msg.analysis_id) 3600
          { analysis_id := msg.analysis_id, status := "completed", processed_at := now,
            vulnerabilities_found := 0 },
         WorkerEffect.ack mid] := rfl

/-- Claim C4 (counterexample): two runs of `detect_simple_vulnerabilities` on the
identical `(code, language)` and identical classifier outcome differ whenever the
fresh identifiers drawn by `uuid4()` differ — the `id` field alone breaks
"all fields of each finding equal". -/
theorem detect_runs_differ_in_ids :
    detect_simple_vulnerabilities (fun _ => "run1-id") "db.query(q + x)" "python"
        MLOutcome.unavailable
      ≠ detect_simple_vulnerabilities (fun _ => "run2-id") "db.query(q + x)" "python"
        MLOutcome.unavailable := by
  intro h
  have h2 : (["run1-id"] : List String) = ["run2-id"] :=
    congrArg (List.map Vulnerability.id) h
  injection h2 with h3 _
  exact absurd h3 (by decide)

/-- Claim C4 (amended): `detect_simple_vulnerabilities` is deterministic up to
the freshly generated `id` field — two runs on identical `(code, language)` with
an unchanged classifier outcome produce findings sequences identical in every
field except `id`, in the same order. -/
theorem detect_deterministic_up_to_ids (ids₁ ids₂ : Nat → String) (code lang : String)
    (ml : MLOutcome) :
    (detect_simple_vulnerabilities ids₁ code lang ml).map eraseId
      = (detect_simple_vulnerabilities ids₂ code lang ml).map eraseId := by
  rw [detect_simple_vulnerabilities, detect_simple_vulnerabilities,
    map_eraseId_attachIds, map_eraseId_attachIds]

/-- Claim C5: whenever line `i+1` of the input (1-indexed; `i` is the 0-based
index into the split lines) contains a query-invocation marker (matched
case-insensitively, as the code does) together with the concatenation operator
`+`, `detect_simple_vulnerabilities` returns a finding with category
"SQL Injection", severity CRITICAL, that line number, and confidence 0.75. -/
theorem sql_concat_line_yields_critical_finding (ids : Nat → String)
    (code lang : String) (ml : MLOutcome) (i : Nat) (line pat : String)
    (hline : (splitLines code).get? i = some line)
    (hpat : pat ∈ sql_patterns)
    (hmarker : containsStr (lowerStr line) (lowerStr pat) = true)
    (hconcat : containsStr line "+" = true) :
    ∃ f ∈ detect_simple_vulnerabilities ids code lang ml,
      f.category = "SQL Injection" ∧ f.severity = "CRITICAL" ∧
      f.line_number = i + 1 ∧ f.confidence_score = 0.75 := by
  have hmem : mkSqlFinding (1 + i) line pat ∈ lineFindings (1 + i) line := by
    apply List.mem_append_left
    apply List.mem_append_left
    apply List.mem_filterMap.mpr
    exact ⟨pat, hpat, by rw [hmarker, hconcat]; rfl⟩
  have h2 : mkSqlFinding (1 + i) line pat ∈ patternFindings code := by
    rw [patternFindings]
    exact mem_patternFindingsFrom_of_get hline hmem
  obtain ⟨f, hf, he⟩ := @mem_attachIds_of_mem ids _ _
    (@pattern_mem_detectFindings code lang _ ml h2)
  obtain ⟨hcat, hsev, hln, _, hconf, _⟩ := eraseId_fields he
  exact ⟨f, hf, hcat, hsev, hln.trans (Nat.add_comm 1 i), hconf⟩

/-- Claim C5 witness: a concrete input whose second line is
`cursor.execute(q + name)` yields the CRITICAL SQL-injection finding at line 2
with confidence 0.75. -/
theorem sql_concat_line_yields_critical_finding_witness :
    ((splitLines "x = 1\ncursor.execute(q + name)").get? 1
        = some "cursor.execute(q + name)") ∧
    ("cursor.execute(" ∈ sql_patterns) ∧
    (containsStr (lowerStr "cursor.execute(q + name)") (lowerStr "cursor.execute(") = true) ∧
    (containsStr "cursor.execute(q + name)" "+" = true) ∧
    ∃ f ∈ detect_simple_vulnerabilities (fun _ => "uuid-0") "x = 1\ncursor.execute(q + name)"
        "python" MLOutcome.unavailable,
      f.category = "SQL Injection" ∧ f.severity = "CRITICAL" ∧
      f.line_number = 2 ∧ f.confidence_score = 0.75 :=
  ⟨by decide, by decide, by decide, by decide,
    sql_concat_line_yields_critical_finding (fun _ => "uuid-0") _ "python"
      MLOutcome.unavailable 1 "cursor.execute(q + name)" "cursor.execute("
      (by decide) (by decide) (by decide) (by decide)⟩

/-- Claim C6: when the classifier is unavailable, or its invocation raises (the
`except` branch), `detect_simple_vulnerabilities` degrades to exactly the
pattern-sourced findings; an internal `predict` failure (surfacing as an empty
prediction list) yields the same result. -/
theorem classifier_failure_degrades_to_pattern_only (ids : Nat → String)
    (code lang : String) :
    detect_simple_vulnerabilities ids code lang MLOutcome.error
        = attachIds ids (patternFindings code) ∧
    detect_simple_vulnerabilities ids code lang MLOutcome.error
        = detect_simple_vulnerabilities ids code lang MLOutcome.unavailable ∧
    detect_simple_vulnerabilities ids code lang (MLOutcome.ok [])
        = detect_simple_vulnerabilities ids code lang MLOutcome.unavailable :=
  ⟨rfl, rfl, by simp [detect_simple_vulnerabilities, detectFindings, mlExtra]⟩

/-- Claim C10: every inbound `analyze` push-session message is answered by an
`analysis_queued` reply and then an `analysis_result` reply whose status is
"completed" and whose vulnerability list is empty, regardless of the
`analysis_id` — the push path never delivers real findings. -/
theorem analyze_reply_has_empty_vulnerabilities (aid : Option String) :
    handle_client_message (ClientMsg.analyze aid)
      = [ServerMsg.analysis_queued aid "processing",
         ServerMsg.analysis_result aid "completed" []] := rfl

/-- Claim C1: when a category already occurs among the pattern-sourced findings
of a request, merging classifier predictions leaves the findings of that
category exactly as in pattern-only detection (the pattern-sourced ones — no
model-sourced finding of that category is added), and every model-sourced
finding in the merged result has a category not present among the pattern
findings. -/
theorem merge_prefers_pattern_findings (ids : Nat → String) (code lang : String)
    (preds : List Pred) (c : String)
    (hc : c ∈ (patternFindings code).map (fun v => v.category)) :
    ((detect_simple_vulnerabilities ids code lang (MLOutcome.ok preds)).filter
        (fun v => v.category == c))
      = ((detect_simple_vulnerabilities ids code lang MLOutcome.unavailable).filter
        (fun v => v.category == c)) ∧
    ∀ f ∈ detect_simple_vulnerabilities ids code lang (MLOutcome.ok preds),
      f.source = "model" →
      f.category ∉ (patternFindings code).map (fun v => v.category) := by
  obtain ⟨v0, hv0, hv0c⟩ := List.mem_map.mp hc
  constructor
  · show (attachIds ids (patternFindings code
        ++ mlExtra code (patternFindings code) preds)).filter (fun v => v.category == c)
      = (attachIds ids (patternFindings code)).filter (fun v => v.category == c)
    rw [attachIds_append, List.filter_append]
    have hnil : (attachIds (fun n => ids (n + (patternFindings code).length))
        (mlExtra code (patternFindings code) preds)).filter (fun v => v.category == c)
        = [] := by
      rw [List.filter_eq_nil_iff]
      intro f hf
      obtain ⟨g, hg, he⟩ := mem_attachIds_imp hf
      have hcat : f.category = g.category := (eraseId_fields he).1
      have hdisj := mlExtra_disjoint code preds (patternFindings code) g hg v0 hv0
      intro hfc
      rw [beq_iff_eq] at hfc
      exact hdisj (hv0c.trans ((hcat.symm.trans hfc).symm))
    rw [hnil, List.append_nil]
  · intro f hf hsrc hmem
    obtain ⟨g, hg, he⟩ := mem_attachIds_imp hf
    obtain ⟨hcat, _, _, _, _, hsource⟩ := eraseId_fields he
    rcases List.mem_append.mp hg with hgp | hge
    · have := (pattern_wf hgp).1
      rw [hsource, this] at hsrc
      exact absurd hsrc (by decide)
    · obtain ⟨w, hw, hwc⟩ := List.mem_map.mp hmem
      exact mlExtra_disjoint code preds (patternFindings code) g hge w hw
        (hwc.trans hcat)

/-- Claim C1 witness: concrete request whose code pattern-detects
"SQL Injection" and whose classifier also predicts "SQL Injection". -/
theorem merge_prefers_pattern_findings_witness :
    ("SQL Injection" ∈ (patternFindings "db.query(q + x)").map (fun v => v.category)) ∧
    (((detect_simple_vulnerabilities (fun _ => "uuid-1") "db.query(q + x)" "python"
        (MLOutcome.ok [⟨"SQL Injection", 0.9, "CRITICAL", "ml_model"⟩])).filter
          (fun v => v.category == "SQL Injection"))
      = ((detect_simple_vulnerabilities (fun _ => "uuid-1") "db.query(q + x)" "python"
        MLOutcome.unavailable).filter (fun v => v.category == "SQL Injection")) ∧
    ∀ f ∈ detect_simple_vulnerabilities (fun _ => "uuid-1") "db.query(q + x)" "python"
        (MLOutcome.ok [⟨"SQL Injection", 0.9, "CRITICAL", "ml_model"⟩]),
      f.source = "model" →
      f.category ∉ (patternFindings "db.query(q + x)").map (fun v => v.category)) :=
  ⟨by decide,
    merge_prefers_pattern_findings (fun _ => "uuid-1") "db.query(q + x)" "python"
      [⟨"SQL Injection", 0.9, "CRITICAL", "ml_model"⟩] "SQL Injection" (by decide)⟩

/-- Claim C3 (counterexample): a finding of `detect_simple_vulnerabilities` can
carry a negative column.  On `EXECUTE(a + b)` the SQL rule matches
case-insensitively but `line.find(pattern)` searches case-sensitively, so the
single finding produced has `column_number = -1`, refuting `columnNumber ≥ 0`. -/
theorem finding_with_negative_column :
    (detect_simple_vulnerabilities (fun _ => "uuid-2") "EXECUTE(a + b)" "python"
        MLOutcome.unavailable).map (fun f => (f.category, f.column_number))
      = [("SQL Injection", -1)] := by decide

/-- Claim C3 (amended): every finding produced by `detect_simple_vulnerabilities`
— pattern-sourced or model-sourced, with classifier scores in the sigmoid range
[0,1] — has `column_number ≥ -1` (`-1` when the matched marker occurs in the
line only in a different letter case, the 0/1 sentinel otherwise when position
is unknown), `confidence_score` within [0,1], and a category from the fixed
ten-category vocabulary. -/
theorem findings_wellformed_up_to_neg_one_column (ids : Nat → String)
    (code lang : String) (scores : List ℚ) (thr : ℚ)
    (hs : ∀ q ∈ scores, 0 ≤ q ∧ q ≤ 1) :
    ∀ f ∈ detect_simple_vulnerabilities ids code lang (MLOutcome.ok (predict scores thr)),
      -1 ≤ f.column_number ∧ 0 ≤ f.confidence_score ∧ f.confidence_score ≤ 1 ∧
      f.category ∈ vulnerability_labels := by
  intro f hf
  obtain ⟨g, hg, he⟩ := mem_attachIds_imp hf
  obtain ⟨hcat, _, _, hcol, hconf, _⟩ := eraseId_fields he
  rcases List.mem_append.mp hg with hgp | hge
  · have hw := pattern_wf hgp
    refine ⟨?_, ?_, ?_, ?_⟩
    · rw [hcol]; exact hw.2.1
    · rw [hconf]; exact hw.2.2.1
    · rw [hconf]; exact hw.2.2.2.1
    · rw [hcat]; exact hw.2.2.2.2
  · obtain ⟨p, hp, rfl⟩ := mlExtra_shape code (predict scores thr) (patternFindings code) g hge
    have hpm := predict_mem hp
    have hb := hs p.confidence hpm.2
    refine ⟨?_, ?_, ?_, ?_⟩
    · rw [hcol]; show (-1 : Int) ≤ 0; norm_num
    · rw [hconf]; exact hb.1
    · rw [hconf]; exact hb.2
    · rw [hcat]; exact hpm.1

/-- Claim C3 witness: concrete scores within [0,1] instantiating the amended
well-formedness theorem. -/
theorem findings_wellformed_up_to_neg_one_column_witness :
    (∀ q ∈ ([1, 0, 0, 0, 0, 0, 0, 0, 0, 0] : List ℚ), 0 ≤ q ∧ q ≤ 1) ∧
    ∀ f ∈ detect_simple_vulnerabilities (fun _ => "uuid-3") "EXECUTE(a + b)" "python"
        (MLOutcome.ok (predict [1, 0, 0, 0, 0, 0, 0, 0, 0, 0] (1/2))),
      -1 ≤ f.column_number ∧ 0 ≤ f.confidence_score ∧ f.confidence_score ≤ 1 ∧
      f.category ∈ vulnerability_labels :=
  have hs : ∀ q ∈ ([1, 0, 0, 0, 0, 0, 0, 0, 0, 0] : List ℚ), 0 ≤ q ∧ q ≤ 1 := by
    intro q hq
    simp only [List.mem_cons, List.not_mem_nil, or_false] at hq
    rcases hq with rfl | rfl | rfl | rfl | rfl | rfl | rfl | rfl | rfl | rfl <;>
      constructor <;> norm_num
  ⟨hs, findings_wellformed_up_to_neg_one_column (fun _ => "uuid-3") "EXECUTE(a + b)"
    "python" [1, 0, 0, 0, 0, 0, 0, 0, 0, 0] (1/2) hs⟩

/-- Claim C7 (counterexample): a processing failure on the first entry of a
two-entry batch aborts the whole pass — the loop's pass reduces to the error
report and the back-off sleep, and neither the failed entry nor the second
entry is acknowledged or processed; the worker does not continue to the next
entry of the batch. -/
theorem batch_abandoned_after_entry_failure :
    runBatch (fun mid => mid == "m1") "t0"
        [("m1", (⟨"a1", "s1", "c1", "f1", "python", "default", "t1"⟩ : QueueMessage)),
         ("m2", (⟨"a2", "s2", "c2", "f2", "python", "default", "t2"⟩ : QueueMessage))]
      = [WorkerEffect.reportError, WorkerEffect.sleep 1] ∧
    WorkerEffect.ack "m2" ∉ runBatch (fun mid => mid == "m1") "t0"
        [("m1", (⟨"a1", "s1", "c1", "f1", "python", "default", "t1"⟩ : QueueMessage)),
         ("m2", (⟨"a2", "s2", "c2", "f2", "python", "default", "t2"⟩ : QueueMessage))] ∧
    (process_code_analysis "t0" (⟨"a2", "s2", "c2", "f2", "python", "default", "t2"⟩ :
        QueueMessage)) ∉ runBatch (fun mid => mid == "m1") "t0"
        [("m1", (⟨"a1", "s1", "c1", "f1", "python", "default", "t1"⟩ : QueueMessage)),
         ("m2", (⟨"a2", "s2", "c2", "f2", "python", "default", "t2"⟩ : QueueMessage))] := by
  refine ⟨by decide, by decide, by decide⟩

/-- Claim C7 (amended): a processing failure on one entry does not terminate the
worker loop (the pass still ends in the report-and-sleep effects and the loop
re-enters), and the failed entry is never acknowledged; however the remainder of
the read batch is abandoned for that pass — entries before the failing one are
fully handled (stored then acknowledged), entries after it are untouched. -/
theorem worker_failure_skips_rest_of_batch (fails : String → Bool) (now : String)
    (pre : List (String × QueueMessage)) (mid : String) (msg : QueueMessage)
    (rest : List (String × QueueMessage))
    (hpre : ∀ p ∈ pre, fails p.1 = false) (hmid : fails mid = true) :
    runBatch fails now (pre ++ (mid, msg) :: rest)
      = (pre.map (fun p => handleEntry now p.1 p.2)).flatten
        ++ [WorkerEffect.reportError, WorkerEffect.sleep 1] ∧
    WorkerEffect.ack mid ∉ runBatch fails now (pre ++ (mid, msg) :: rest) := by
  have hsplit := runBatch_fail_split fails now pre mid msg rest hpre hmid
  refine ⟨hsplit, ?_⟩
  rw [hsplit]
  intro hmem
  rcases List.mem_append.mp hmem with hmem | hmem
  · obtain ⟨l, hl, hml⟩ := List.mem_flatten.mp hmem
    obtain ⟨p, hp, rfl⟩ := List.mem_map.mp hl
    rcases List.mem_cons.mp hml with h1 | h2
    · cases h1
    · rcases List.mem_cons.mp h2 with h3 | h4
      · have : mid = p.1 := by injection h3
        rw [this] at hmid
        rw [hpre p hp] at hmid
        cases hmid
      · cases h4
  · rcases List.mem_cons.mp hmem with h1 | h2
    · cases h1
    · rcases List.mem_cons.mp h2 with h3 | h4
      · cases h3
      · cases h4

/-- Claim C7 witness: a concrete batch with one successfully handled entry
before the failing one. -/
theorem worker_failure_skips_rest_of_batch_witness :
    (∀ p ∈ [("m0", (⟨"a0", "s0", "c0", "f0", "python", "default", "t0"⟩ : QueueMessage))],
      (fun mid => mid == "m1") p.1 = false) ∧
    ((fun mid => mid == "m1") "m1" = true) ∧
    (runBatch (fun mid => mid == "m1") "t"
        ([("m0", (⟨"a0", "s0", "c0", "f0", "python", "default", "t0"⟩ : QueueMessage))]
          ++ ("m1", (⟨"a1", "s1", "c1", "f1", "python", "default", "t1"⟩ : QueueMessage))
            :: [])
      = ([("m0", (⟨"a0", "s0", "c0", "f0", "python", "default", "t0"⟩ : QueueMessage))].map
          (fun p => handleEntry "t" p.1 p.2)).flatten
        ++ [WorkerEffect.reportError, WorkerEffect.sleep 1] ∧
    WorkerEffect.ack "m1" ∉ runBatch (fun mid => mid == "m1") "t"
        ([("m0", (⟨"a0", "s0", "c0", "f0", "python", "default", "t0"⟩ : QueueMessage))]
          ++ ("m1", (⟨"a1", "s1", "c1", "f1", "python", "default", "t1"⟩ : QueueMessage))
            :: [])) :=
  ⟨by decide, by decide,
    worker_failure_skips_rest_of_batch (fun mid => mid == "m1") "t"
      [("m0", (⟨"a0", "s0", "c0", "f0", "python", "default", "t0"⟩ : QueueMessage))]
      "m1" (⟨"a1", "s1", "c1", "f1", "python", "default", "t1"⟩ : QueueMessage) []
      (by decide) (by decide)⟩

/-- Claim C8: for a client with two registered handles, a send failure on one
handle during `broadcast_to_client` is isolated — the other handle still
receives the message, and afterwards exactly the surviving handle remains
registered for that client (the failed one is pruned). -/
theorem broadcast_isolates_send_failure (sendOk : Nat → Bool) (r : Registry)
    (cid : String) (h1 h2 : Nat)
    (hconns : lookupClient r cid = some [h1, h2] ∨ lookupClient r cid = some [h2, h1])
    (hne : h1 ≠ h2) (hfail : sendOk h1 = false) (hok : sendOk h2 = true) :
    lookupClient (broadcast_to_client sendOk r cid).1 cid = some [h2] ∧
    (broadcast_to_client sendOk r cid).2 = [h2] := by
  have h11 : (h1 != h1) = false := by simp
  have h21 : (h2 != h1) = true := bne_iff_ne.mpr (Ne.symm hne)
  rcases hconns with hc | hc
  · have hb : broadcast_to_client sendOk r cid = (setClient r cid [h2], [h2]) := by
      rw [broadcast_to_client, hc]
      simp [List.filter_cons, hfail, hok, sdiscard, h11, h21]
    rw [hb]
    exact ⟨lookupClient_setClient [h2] hc, rfl⟩
  · have hb : broadcast_to_client sendOk r cid = (setClient r cid [h2], [h2]) := by
      rw [broadcast_to_client, hc]
      simp [List.filter_cons, hfail, hok, sdiscard, h11, h21]
    rw [hb]
    exact ⟨lookupClient_setClient [h2] hc, rfl⟩

/-- Claim C8 witness: client "c" with handles 1 and 2, the send to 1 failing. -/
theorem broadcast_isolates_send_failure_witness :
    lookupClient (broadcast_to_client (fun h => h == 2) [("c", [1, 2])] "c").1 "c"
        = some [2] ∧
    (broadcast_to_client (fun h => h == 2) [("c", [1, 2])] "c").2 = [2] :=
  broadcast_isolates_send_failure (fun h => h == 2) [("c", [1, 2])] "c" 1 2
    (Or.inl (by decide)) (by decide) (by decide) (by decide)

/-- Claim C9: `disconnect` preserves the no-dangling-empty-sets invariant (a
client whose handle set empties is deleted), but `broadcast_to_client` does
not: when every handle of a client fails during broadcast, the client remains
a key of the registry mapped to the empty set. -/
theorem empty_set_invariant_disconnect_vs_broadcast :
    (∀ (r : Registry) (ws : Nat) (cid : String),
      (∀ p ∈ r, p.2 ≠ ([] : List Nat)) → ∀ p ∈ disconnect r ws cid, p.2 ≠ []) ∧
    (∀ (sendOk : Nat → Bool) (r : Registry) (cid : String) (hs : List Nat),
      lookupClient r cid = some hs → (∀ h ∈ hs, sendOk h = false) →
      lookupClient (broadcast_to_client sendOk r cid).1 cid = some []) := by
  constructor
  · intro r ws cid hinv p hp
    cases hlook : lookupClient r cid with
    | none =>
      rw [disconnect, hlook] at hp
      exact hinv p hp
    | some conns =>
      rw [disconnect, hlook] at hp
      have hp2 : p ∈ (if (sdiscard conns ws).isEmpty then r.filter (fun q => q.1 != cid)
          else setClient r cid (sdiscard conns ws)) := hp
      by_cases he : (sdiscard conns ws).isEmpty
      · rw [if_pos he] at hp2
        exact hinv p (List.mem_filter.mp hp2).1
      · rw [if_neg he] at hp2
        simp only [setClient, List.mem_map] at hp2
        obtain ⟨q, hq, hpq⟩ := hp2
        by_cases hqc : q.1 = cid
        · rw [if_pos hqc] at hpq
          rw [← hpq]
          intro hcon
          have : (sdiscard conns ws).isEmpty = true := by
            rw [show (cid, sdiscard conns ws).2 = sdiscard conns ws from rfl] at hcon
            rw [hcon]
            rfl
          exact he this
        · rw [if_neg hqc] at hpq
          rw [← hpq]
          exact hinv q hq
  · intro sendOk r cid hs hlook hfail
    have hdisc : hs.filter (fun h => ! sendOk h) = hs :=
      List.filter_eq_self.mpr fun a ha => by rw [hfail a ha]; rfl
    have hb : (broadcast_to_client sendOk r cid).1
        = setClient r cid (List.foldl sdiscard hs (hs.filter (fun h => ! sendOk h))) := by
      rw [broadcast_to_client, hlook]
    rw [hb, hdisc, foldl_sdiscard_eq_nil (fun x hx => hx)]
    exact lookupClient_setClient [] hlook

/-- Claim C9 witness: concrete registries instantiating both halves —
`disconnect` of handle 1 from client "c" in a two-handle registry keeps all
sets non-empty, and an all-fail broadcast leaves "c" mapped to the empty set. -/
theorem empty_set_invariant_disconnect_vs_broadcast_witness :
    (∀ p ∈ disconnect [("c", [1, 2])] 1 "c", p.2 ≠ ([] : List Nat)) ∧
    lookupClient (broadcast_to_client (fun _ => false) [("c", [5])] "c").1 "c" = some [] :=
  ⟨empty_set_invariant_disconnect_vs_broadcast.1 [("c", [1, 2])] 1 "c" (by decide),
   empty_set_invariant_disconnect_vs_broadcast.2 (fun _ => false) [("c", [5])] "c" [5]
     (by decide) (by decide)⟩

end SecureCode
